import Mathlib

/-
  Verification development for the LaTeX compilation service
  (an Express HTTP service that compiles LaTeX via pdflatex and, on
  failure, retries after asking an LLM to patch the source).

  The JavaScript source is shallowly embedded: every pure computation
  (string splitting, log classification, fence stripping) is translated
  to an executable Lean function, and the effectful handler is modelled
  as a pure function over an oracle record describing the outcomes of
  the external operations (pdflatex runs, LLM fix calls, mkdir/rm
  filesystem operations).  The opaque job identifier (a UUID) plays no
  role in any property and is omitted from the response model.
-/

namespace LatexService

/-! ## JavaScript string primitives, modelled on character lists -/

/-- Test whether `pat` is a prefix of the second list
(character-by-character, as one step of a JS scan). -/
def listHasPre : List Char → List Char → Bool
  | [], _ => true
  | _ :: _, [] => false
  | p :: ps, c :: cs => p == c && listHasPre ps cs

/-- Occurrence test: `pat` occurs contiguously somewhere in the list. -/
def listHasSub (pat : List Char) : List Char → Bool
  | [] => pat.isEmpty
  | c :: cs => listHasPre pat (c :: cs) || listHasSub pat cs

/-- JS `s.includes(sub)`. -/
def jsIncludes (s sub : String) : Bool :=
  listHasSub sub.data s.data

/-- JS `line.startsWith("!")`. -/
def startsBang (l : String) : Bool :=
  match l.data with
  | '!' :: _ => true
  | _ => false

/-- The whitespace characters JS `trim` removes, restricted to the ASCII
range that can occur in the strings of this service. -/
def isJsWs (c : Char) : Bool :=
  c == ' ' || c == '\t' || c == '\n' || c == '\r' || c == '\x0b' || c == '\x0c'

/-- Drop leading JS whitespace. -/
def dropWsLeft : List Char → List Char
  | [] => []
  | c :: cs => if isJsWs c then dropWsLeft cs else c :: cs

/-- JS `s.trim()`. -/
def jsTrim (s : String) : String :=
  String.mk (List.reverse (dropWsLeft (List.reverse (dropWsLeft s.data))))

/-- Split a character list at each newline (accumulator-based),
JS `s.split("\n")`. -/
def splitNlChars : List Char → List Char → List (List Char)
  | [], acc => [acc.reverse]
  | c :: cs, acc =>
    if c == '\n' then acc.reverse :: splitNlChars cs []
    else splitNlChars cs (c :: acc)

/-- JS `s.split("\n")`. -/
def splitNl (s : String) : List String :=
  (splitNlChars s.data []).map String.mk

/-- Split at each occurrence of the (non-empty) pattern `p :: ps`,
JS `s.split(pat)` for a string pattern. -/
def splitPatAux (p : Char) (ps : List Char) : List Char → List Char → List (List Char)
  | [], acc => [acc.reverse]
  | c :: cs, acc =>
    if listHasPre (p :: ps) (c :: cs) then
      acc.reverse :: splitPatAux p ps (cs.drop ps.length) []
    else
      splitPatAux p ps cs (c :: acc)
termination_by cs _ => cs.length
decreasing_by
  · simp only [List.length_drop, List.length_cons]; omega
  · simp only [List.length_cons]; omega

/-- JS `s.split(pat)` for a non-empty string pattern, lifted to `String`. -/
def jsSplit (s : String) (p : Char) (ps : List Char) : List String :=
  (splitPatAux p ps s.data []).map String.mk

/-- JS `arr.join("\n")`. -/
def joinNl : List String → String
  | [] => ""
  | [x] => x
  | x :: xs => x ++ "\n" ++ joinNl xs

/-- JS `arr.slice(-n)`: the last `n` elements (all of them if fewer). -/
def lastNOf (n : Nat) (xs : List String) : List String :=
  xs.drop (xs.length - n)

/-- JS `s.split("\n")[0]`: the text before the first newline. -/
def jsFirstLine (s : String) : String :=
  (splitNl s).headD ""

/-! ## The log interpreter (`extractLatexError`) -/

/-- Characters before the first single-quote of the list, if a
single-quote occurs at all. -/
def firstQuoteSplit : List Char → Option (List Char)
  | [] => none
  | c :: cs => if c == '\'' then some [] else (firstQuoteSplit cs).map (c :: ·)

/-- Lazy capture of the regex part `(.+?)` followed by a single-quote:
at least one character, extended minimally up to the next single-quote. -/
def captureAfter : List Char → Option (List Char)
  | [] => none
  | c :: cs => (firstQuoteSplit cs).map (fun pre => c :: pre)

/-- The capture group of the JS regex matching `File`, a backtick, a
lazy non-empty capture and a closing single-quote (the regex the source
applies to file-not-found lines): the leftmost occurrence that a later
single-quote closes. -/
def fileCapture : List Char → Option (List Char)
  | [] => none
  | c :: cs =>
    if listHasPre ("File `").data (c :: cs) then
      match captureAfter (cs.drop 5) with
      | some cap => some cap
      | none => fileCapture cs
    else fileCapture cs

def undefinedCmdMsg : String :=
  "Undefined LaTeX command. Check for typos in commands or missing packages."

def missingDelimMsg : String :=
  "Missing delimiter or bracket. Check for unclosed braces, brackets, or math mode."

def emergencyMsg : String :=
  "Critical LaTeX error. Check document structure and syntax."

def compFailedMsg : String :=
  "Compilation failed. Check LaTeX syntax."

def fileNotFoundMsg (name : String) : String :=
  "Missing file or package: " ++ name ++ ". Add \\usepackage\x7b\x7d for missing packages."

/-- Classification of an error line, in the priority order of the
source: undefined control sequence, then file-not-found, then missing,
then emergency stop; otherwise the line with the leading exclamation
mark stripped and trimmed. -/
def classifyBangLine (line : String) : String :=
  if jsIncludes line "Undefined control sequence" then undefinedCmdMsg
  else if jsIncludes line "File" && jsIncludes line "not found" then
    fileNotFoundMsg (match fileCapture line.data with
      | some cap => String.mk cap
      | none => "unknown")
  else if jsIncludes line "Missing" then missingDelimMsg
  else if jsIncludes line "Emergency stop" then emergencyMsg
  else jsTrim (String.mk (line.data.drop 1))

/-- The scan of the `for` loop of the source over log lines: stops at
the first line starting with an exclamation mark and returns it with the
window of (up to) five lines from that position. -/
def extractScan : List String → Option (String × List String)
  | [] => none
  | line :: rest =>
    if startsBang line then some (line, List.take 5 (line :: rest))
    else extractScan rest

/-- The filter the source applies to log lines when no error line
exists: kept iff `l.trim()` is truthy and the line does not contain the
file-list marker. -/
def meaningfulLine (l : String) : Bool :=
  !(jsTrim l == "") && !(jsIncludes l "*File List*")

/-- The function `extractLatexError`, pure part (the content of the log
file given): returns `(userFriendlyError, errorDetails)`. -/
def extractLatexErrorPure (logContent : String) : String × String :=
  let lines := splitNl logContent
  match extractScan lines with
  | some (line, errLines) => (classifyBangLine line, joinNl errLines)
  | none => (compFailedMsg, joinNl (lastNOf 10 (lines.filter meaningfulLine)))

/-- The function `extractLatexError` with the log read modelled:
`logContent = none` means `fs.readFile` threw (with message `readErr`). -/
def extractLatexErrorRun (logContent : Option String) (readErr : String) : String × String :=
  match logContent with
  | some content => extractLatexErrorPure content
  | none => ("Failed to compile LaTeX document.", readErr)

/-! ## Spec-side reading of the log-interpreter contract -/

/-- Index of the first line starting with an exclamation mark, written
from the words of the spec (finds the first line whose first character
is the error marker). -/
def findBangIdx : List String → Option Nat
  | [] => none
  | l :: rest => if startsBang l then some 0 else (findBangIdx rest).map (· + 1)

/-- The excerpt the claim prescribes for a log with no error line: the
last ten non-blank lines, with no further exclusion. -/
def claimedPlainExcerpt (logContent : String) : String :=
  joinNl (lastNOf 10 ((splitNl logContent).filter (fun l => !(jsTrim l == ""))))

/-- Spec-side reading of the whole log-interpreter contract, amended
only in the fallback excerpt: the last ten non-blank lines that do not
contain the file-list marker. -/
def claimedExtract (logContent : String) : String × String :=
  let lines := splitNl logContent
  match findBangIdx lines with
  | some i => (classifyBangLine (lines.getD i ""), joinNl (List.take 5 (lines.drop i)))
  | none =>
    (compFailedMsg,
     joinNl (lastNOf 10 (lines.filter (fun l => !(jsTrim l == "") && !(jsIncludes l "*File List*")))))

/-! ## The fix requester: response post-processing of `fixLatexErrors` -/

/-- The backtick character, the building block of markdown fences. -/
def tickChar : Char := ("`".data).headD ' '

/-- The fence pattern minus its first character: `fixCleanup` removes
occurrences of three backticks followed by `latex`. -/
def fenceLatexTail : List Char := ("``latex").data

/-- The bare fence pattern minus its first character: three backticks. -/
def fenceTail : List Char := ("``").data

/-- Drop one leading newline: the optional-newline part of the fence
regexes. -/
def dropOptNl : List Char → List Char
  | '\n' :: cs => cs
  | cs => cs

/-- One global pass of JS `s.replace(re, "")` where `re` is the
non-empty literal pattern `p :: ps` followed by an optional newline:
scan left to right, delete each occurrence of the pattern together with
one optional following newline. -/
def removeFenceOccs (p : Char) (ps : List Char) : List Char → List Char
  | [] => []
  | c :: cs =>
    if listHasPre (p :: ps) (c :: cs) then
      removeFenceOccs p ps (dropOptNl (cs.drop ps.length))
    else c :: removeFenceOccs p ps cs
termination_by cs => cs.length
decreasing_by
  · have h1 : ∀ l : List Char, (dropOptNl l).length ≤ l.length := by
      intro l
      unfold dropOptNl
      split
      · simp
      · exact Nat.le_refl _
    have h2 := h1 (cs.drop ps.length)
    simp only [List.length_drop, List.length_cons] at *
    omega
  · simp only [List.length_cons]; omega

/-- The result-processing of `fixLatexErrors`: trim the completion text,
then remove every latex-tagged fence marker, then every bare fence
marker (each with an optional trailing newline). -/
def fixCleanup (raw : String) : String :=
  String.mk (removeFenceOccs tickChar fenceTail
    (removeFenceOccs tickChar fenceLatexTail (jsTrim raw).data))

/-- Occurrence of a triple backtick (a fence marker) anywhere in the
list. -/
def hasTripleTick : List Char → Bool
  | [] => false
  | c :: cs => (c == tickChar && listHasPre (tickChar :: [tickChar]) cs) || hasTripleTick cs

/-- Length of the leading backtick run. -/
def tickRun : List Char → Nat
  | [] => 0
  | c :: cs => if c == tickChar then tickRun cs + 1 else 0

/-! ## The compiler invoker (`compileLatex`) -/

inductive CompileOutcome where
  | ok (pdf : List Nat)
  | fail (msg : String)
deriving DecidableEq

/-- The outcomes of the external operations one `compileLatex` call
depends on: whether `execAsync(pdflatex ...)` rejected (non-zero exit or
timeout) and with what message, whether `document.pdf` exists afterwards
and its bytes, and the content of `document.log` (`none` = unreadable). -/
structure CompileEnv where
  execFails : Bool
  execErrMsg : String
  pdfExists : Bool
  pdfBytes : List Nat
  logContent : Option String
  logReadErr : String
deriving DecidableEq

/-- The message of the error `compileLatex` builds from the log: the
user-friendly part, then a details block when the details are
non-empty. -/
def latexErrMsg (env : CompileEnv) : String :=
  let r := extractLatexErrorRun env.logContent env.logReadErr
  r.1 ++ (if r.2 == "" then "" else "\n\nDetails: " ++ r.2)

/-- The function `compileLatex(tempDir, texFile, latex)`: runs pdflatex,
then reports the PDF bytes if `document.pdf` exists, else throws the
classified log error.  A rejection of `execAsync` lands in the catch
block, which rethrows messages already carrying a details block and
otherwise builds the classified log error itself. -/
def compileLatex (env : CompileEnv) : CompileOutcome :=
  if env.execFails then
    if jsIncludes env.execErrMsg "Details:" then CompileOutcome.fail env.execErrMsg
    else CompileOutcome.fail (latexErrMsg env)
  else if env.pdfExists then
    CompileOutcome.ok env.pdfBytes
  else
    let m := latexErrMsg env
    if jsIncludes m "Details:" then CompileOutcome.fail m
    else CompileOutcome.fail (latexErrMsg env)

/-- Whether `compileLatex` resolved (returned the PDF) rather than
rejected. -/
def isSuccess : CompileOutcome → Bool
  | CompileOutcome.ok _ => true
  | CompileOutcome.fail _ => false

/-! ## The `POST /compile` handler (LLM-fixing version) -/

inductive FixOutcome where
  | fixed (newSrc : String)
  | fixFail (msg : String)
deriving DecidableEq

/-- Outcomes of the external operations of one request: the result of
the pdflatex run of each attempt, the result of the LLM fix call made
after each failed attempt, and whether each filesystem operation
succeeds (`mkdirOk`; `rmSuccessOk` for the `fs.rm` on the success path
inside the try block of the loop, whose rejection (message `rmErr`) is
caught by the catch of the loop like a compilation failure; `rmFailOk`
for the catch-guarded `fs.rm` after the loop; `rmCatchOk` for the
catch-guarded `fs.rm` in the outer catch, which the model reaches only
on the mkdir-failure path, where the directory never existed). -/
structure Oracles where
  compile : Nat → CompileOutcome
  fix : Nat → FixOutcome
  mkdirOk : Bool
  mkdirErr : String
  rmSuccessOk : Bool
  rmErr : String
  rmFailOk : Bool
  rmCatchOk : Bool

/-- The response the handler sends (the UUID job id is omitted). -/
inductive Response where
  | pdf (bytes : List Nat) (attempts : Nat) (llmFixed : Bool)
  | badRequest (error : String)
  | failJson (error details : String) (attempts : Nat) (llmSuggestions : Option String)
  | internalError (details : String)
deriving DecidableEq

/-- Everything observable about one request: the response together with
how many external compiler and fix calls were made, and the lifecycle of
the working directory (created? still existing when the response went
out?). -/
structure RunResult where
  response : Response
  compileCalls : Nat
  fixCalls : Nat
  dirCreated : Bool
  dirExists : Bool
deriving DecidableEq

def MAX_ATTEMPTS : Nat := 3

/-- The `details` field of the failure response: when the last error
message carries a details block, the text after the first `Details:`
separator (and before a second one), trimmed; otherwise the whole
message. -/
def jsDetailsField (lastError : String) : String :=
  if jsIncludes lastError "Details:" then
    jsTrim ((jsSplit lastError 'D' ("etails:").data).getD 1 "")
  else lastError

def aiFixPre : String := "AI has attempted to fix the following issues:\n"

def aiUnavailable : String := "AI assistance unavailable. Manual fixes required."

/-- The code after the loop (all attempts failed): best-effort `fs.rm`,
then the JSON error response, whose `attempts` field is the constant
`MAX_ATTEMPTS`. -/
def finishFailure (o : Oracles) (lastError : String) (sugg : Option String)
    (cc fc : Nat) : RunResult :=
  { response := Response.failJson (jsFirstLine lastError) (jsDetailsField lastError)
      MAX_ATTEMPTS sugg
    compileCalls := cc
    fixCalls := fc
    dirCreated := true
    dirExists := !o.rmFailOk }

/-- The bounded retry loop of the handler (attempt = 1 .. MAX_ATTEMPTS).
`fuel` is the number of remaining iterations (`MAX_ATTEMPTS + 1 - attempt`
at every reachable call); `a` is the attempt counter, the third argument
is `currentLatex`, `lastErr` the `lastError` variable (`none` = JS null),
`sugg` the `llmSuggestions` variable, `cc` and `fc` count external
compiler and fix calls so far.

Each iteration runs the try block of the loop body: `compileLatex`, then
the success-path `fs.rm`, then the PDF response.  The try block either
sends the PDF (`Sum.inl`) or throws (`Sum.inr` with the thrown message):
a rejection of `compileLatex` AND a rejection of the success-path
`fs.rm` both land in the same `catch (compileError)`, which stores the
message in `lastError` and then either breaks to the post-loop failure
block or asks the LLM for a fix and continues with the next attempt.

Exhausting the loop (fuel 0) falls through to the post-loop failure
block; the source reaches it only with `lastError` set, which the
`Option.getD` mirrors. -/
def runAttempts (o : Oracles) (autoFix : Bool) :
    Nat → Nat → String → Option String → Option String → Nat → Nat → RunResult
  | 0, _, _, lastErr, sugg, cc, fc =>
    finishFailure o (lastErr.getD "") sugg cc fc
  | fuel + 1, a, _cur, _, sugg, cc, fc =>
    match (match o.compile a with
           | CompileOutcome.ok pdfBytes =>
             if o.rmSuccessOk then Sum.inl pdfBytes
             else Sum.inr o.rmErr
           | CompileOutcome.fail msg => Sum.inr msg : List Nat ⊕ String) with
    | Sum.inl pdfBytes =>
      -- success: the directory was removed; return the PDF with the
      -- attempt headers
      { response := Response.pdf pdfBytes a (decide (1 < a))
        compileCalls := cc + 1
        fixCalls := fc
        dirCreated := true
        dirExists := false }
    | Sum.inr msg =>
      -- catch (compileError): lastError := the thrown message
      if autoFix = false ∨ a = MAX_ATTEMPTS then
        finishFailure o msg sugg (cc + 1) fc
      else
        match o.fix a with
        | FixOutcome.fixed newSrc =>
          runAttempts o autoFix fuel (a + 1) newSrc (some msg)
            (some (aiFixPre ++ jsFirstLine msg)) (cc + 1) (fc + 1)
        | FixOutcome.fixFail _ =>
          finishFailure o msg (some aiUnavailable) (cc + 1) (fc + 1)

/-- JS truthiness of the `latex` body field (`none` = absent or
undefined or null). -/
def jsTruthy : Option String → Bool
  | none => false
  | some s => !(s == "")

def noLatexMsg : String := "No LaTeX content provided"

/-- The `POST /compile` handler: validate the truthiness of the `latex`
field, create the working directory, run the retry loop.
`autoFixField = none` models an absent `autoFix` property, defaulted to
`true` by the destructuring. -/
def handleCompile (latex : Option String) (autoFixField : Option Bool)
    (o : Oracles) : RunResult :=
  let autoFix := autoFixField.getD true
  if jsTruthy latex = false then
    { response := Response.badRequest noLatexMsg
      compileCalls := 0
      fixCalls := 0
      dirCreated := false
      dirExists := false }
  else if o.mkdirOk = false then
    -- fs.mkdir threw: outer catch; best-effort rm of a directory that
    -- was never created
    { response := Response.internalError o.mkdirErr
      compileCalls := 0
      fixCalls := 0
      dirCreated := false
      dirExists := false }
  else
    runAttempts o autoFix MAX_ATTEMPTS 1 (latex.getD "") none none 0 0

/-! ## Concrete inputs and oracles used by counterexamples and witnesses -/

/-- A log whose first error line is a missing-delimiter error and whose
second is an undefined-control-sequence error. -/
def mixedLog : String := "! Missing $ inserted.\n! Undefined control sequence."

/-- A log that exercises the undefined-control-sequence classification
at the first error line. -/
def undefLog : String :=
  "This is pdfTeX, noise\n! Undefined control sequence.\nl.3 \\textbf"

/-- A log with no error line whose tail contains a file-list line. -/
def fileListLog : String := "*File List*\nabc"

/-- An environment where the pdflatex process failed (non-zero exit or
timeout) although the PDF artifact exists. -/
def cexEnv : CompileEnv :=
  { execFails := true
    execErrMsg := "Command failed: pdflatex exited with 1"
    pdfExists := true
    pdfBytes := [37, 80, 68, 70]
    logContent := some "! Missing $ inserted."
    logReadErr := "" }

/-- An oracle where every compilation attempt fails with a fixed
message, every fix call succeeds, and every filesystem operation
succeeds. -/
def cOracle : Oracles :=
  { compile := fun _ => CompileOutcome.fail "boom"
    fix := fun _ => FixOutcome.fixed "fixed-src"
    mkdirOk := true
    mkdirErr := ""
    rmSuccessOk := true
    rmErr := ""
    rmFailOk := true
    rmCatchOk := true }

/-- An oracle where the first compilation attempt succeeds and the
success-path `fs.rm` would fail with message `rm boom`. -/
def cOracleSucc : Oracles :=
  { compile := fun _ => CompileOutcome.ok [1, 2]
    fix := fun _ => FixOutcome.fixed "fixed-src"
    mkdirOk := true
    mkdirErr := ""
    rmSuccessOk := true
    rmErr := "rm boom"
    rmFailOk := true
    rmCatchOk := true }

/-! ## Helper lemmas -/

/-- The scan of the source finds exactly the line at the index computed
by the spec-side `findBangIdx`, together with the five-line window. -/
theorem extractScan_eq_findBangIdx (lines : List String) :
    extractScan lines
      = (findBangIdx lines).map (fun i => (lines.getD i "", List.take 5 (lines.drop i))) := by
  induction lines with
  | nil => rfl
  | cons l rest ih =>
    cases h : startsBang l with
    | true => simp [extractScan, findBangIdx, h]
    | false =>
      simp only [extractScan, findBangIdx, h, Bool.false_eq_true, if_false]
      rw [ih]
      cases hf : findBangIdx rest with
      | none => simp
      | some i => simp

/-! ## Claims C4 and C3: the log interpreter -/

/-- Claim C4, counterexample: on a log with no error line whose tail
holds a file-list line, the excerpt of the code is not the last ten
non-blank lines the claim prescribes (the code additionally excludes
file-list lines). -/
theorem claim_C4_cex :
    findBangIdx (splitNl fileListLog) = none ∧
    (extractLatexErrorPure fileListLog).2 ≠ claimedPlainExcerpt fileListLog := by
  decide

/-- Claim C4 (amended): for every raw log text the interpreter
classifies the first line whose first character is the error marker,
checking the four substrings in the fixed priority order and otherwise
stripping the marker, with the five-line window as detail; when no such
line exists it returns the generic compilation-failed message together
with the last ten non-blank lines that do not contain the file-list
marker. -/
theorem claim_C4_amended (log : String) : extractLatexErrorPure log = claimedExtract log := by
  simp only [extractLatexErrorPure, claimedExtract, extractScan_eq_findBangIdx]
  cases hf : findBangIdx (splitNl log) with
  | none => rfl
  | some i => rfl

/-- Claim C3, counterexample: a log containing an
undefined-control-sequence marker line is classified as a
missing-delimiter error, not as the canned undefined-command sentence,
because an earlier error line wins. -/
theorem claim_C3_cex :
    ((splitNl mixedLog).any (fun l => startsBang l && jsIncludes l "Undefined control sequence"))
      = true ∧
    (extractLatexErrorPure mixedLog).1 = missingDelimMsg ∧
    missingDelimMsg ≠ undefinedCmdMsg := by
  decide

/-- Claim C3 (amended): whenever the FIRST error-marker line of the log
contains the undefined-control-sequence substring, the classified
message equals the canned undefined-command sentence verbatim,
regardless of the other lines of the log. -/
theorem claim_C3_amended (log : String) (i : Nat)
    (h1 : findBangIdx (splitNl log) = some i)
    (h2 : jsIncludes ((splitNl log).getD i "") "Undefined control sequence" = true) :
    (extractLatexErrorPure log).1 = undefinedCmdMsg := by
  simp only [extractLatexErrorPure, extractScan_eq_findBangIdx, h1, Option.map_some']
  simp only [List.getD_eq_getElem?_getD] at h2
  simp [classifyBangLine, h2]

/-- Claim C3, witness: a concrete log whose first error line carries the
undefined-control-sequence marker is classified with the canned
sentence. -/
theorem claim_C3_witness : (extractLatexErrorPure undefLog).1 = undefinedCmdMsg :=
  claim_C3_amended undefLog 1 (by decide) (by decide)

/-! ## Claim C7: the compiler invoker -/

/-- Claim C7, counterexample: a run where the pdflatex process fails
(non-zero exit or timeout) although the PDF artifact exists is reported
as failure, refuting success-iff-artifact-exists. -/
theorem claim_C7_cex : cexEnv.pdfExists = true ∧ isSuccess (compileLatex cexEnv) = false := by
  decide

/-- Claim C7 (amended): the compiler invoker reports success iff the
process run did not fail AND the expected output artifact exists
afterwards; in particular a run that exits zero without producing the
artifact is reported as failure. -/
theorem claim_C7_amended (env : CompileEnv) :
    isSuccess (compileLatex env) = (!env.execFails && env.pdfExists) := by
  unfold compileLatex
  cases h1 : env.execFails with
  | true =>
    cases h2 : jsIncludes env.execErrMsg "Details:" <;> simp [h2, isSuccess]
  | false =>
    cases h2 : env.pdfExists with
    | true => simp [isSuccess]
    | false =>
      cases h3 : jsIncludes (latexErrMsg env) "Details:" <;> simp [h3, isSuccess]

/-! ## Claims C8 and C10: input validation -/

/-- Claim C8: a request body with no latex field is rejected with the
no-content error, no working directory is created, and no external call
is made. -/
theorem claim_C8_reject_missing (af : Option Bool) (o : Oracles) :
    (handleCompile none af o).response = Response.badRequest noLatexMsg ∧
    (handleCompile none af o).dirCreated = false ∧
    (handleCompile none af o).compileCalls = 0 ∧
    (handleCompile none af o).fixCalls = 0 :=
  ⟨rfl, rfl, rfl, rfl⟩

/-- Claim C10: a latex field that is present but the empty string is
rejected exactly like a missing field (presence is tested by
truthiness): the whole observable result coincides, the response is the
same rejection, and no working directory is created. -/
theorem claim_C10_reject_empty (af : Option Bool) (o : Oracles) :
    handleCompile (some "") af o = handleCompile none af o ∧
    (handleCompile (some "") af o).response = Response.badRequest noLatexMsg ∧
    (handleCompile (some "") af o).dirCreated = false :=
  ⟨rfl, rfl, rfl⟩

/-! ## Claim C9: fence stripping -/

theorem fenceTail_eq : fenceTail = [tickChar, tickChar] := by decide

/-- A leading double backtick forces a backtick run of length two. -/
theorem two_le_tickRun (l : List Char)
    (h : listHasPre (tickChar :: [tickChar]) l = true) : 2 ≤ tickRun l := by
  match l with
  | [] => simp [listHasPre] at h
  | [c] => simp [listHasPre] at h
  | c1 :: c2 :: t =>
    simp only [listHasPre, Bool.and_eq_true, beq_iff_eq] at h
    obtain ⟨hc1, hc2, -⟩ := h
    simp [tickRun, ← hc1, ← hc2]

/-- A backtick run of length at most one rules out a leading double
backtick. -/
theorem not_pre_of_tickRun_le_one (l : List Char) (h : tickRun l ≤ 1) :
    listHasPre (tickChar :: [tickChar]) l = false := by
  cases hp : listHasPre (tickChar :: [tickChar]) l with
  | false => rfl
  | true => exact absurd (two_le_tickRun l hp) (by omega)

/-- Failing to start with a double backtick bounds the backtick run by
one. -/
theorem tickRun_le_one_of_not_double (l : List Char)
    (h : listHasPre (tickChar :: [tickChar]) l = false) : tickRun l ≤ 1 := by
  match l with
  | [] => simp [tickRun]
  | c :: t =>
    simp only [listHasPre] at h
    by_cases hc : tickChar == c
    · have hc' : c == tickChar := by
        rw [beq_iff_eq] at hc ⊢
        exact hc.symm
      rw [hc, Bool.true_and] at h
      have ht : tickRun t = 0 := by
        match t with
        | [] => simp [tickRun]
        | d :: t' =>
          simp only [listHasPre, Bool.and_eq_true] at h
          have hd : (tickChar == d) = false := by
            cases hdd : tickChar == d with
            | false => rfl
            | true => simp [hdd, listHasPre] at h
          have hd' : (d == tickChar) = false := by
            cases hdd : d == tickChar with
            | false => rfl
            | true =>
              rw [beq_iff_eq] at hdd
              simp [hdd] at hd
          simp [tickRun, hd']
      simp [tickRun, hc', ht]
    · have hc' : (c == tickChar) = false := by
        cases hcc : c == tickChar with
        | false => rfl
        | true =>
          rw [beq_iff_eq] at hcc
          simp [hcc] at hc
      simp [tickRun, hc']

/-- The bare-fence removal pass leaves no triple backtick in its output,
and its output has a leading backtick run no longer than the input run
and never longer than two. -/
theorem removeTicks_aux :
    ∀ (n : Nat) (cs : List Char), cs.length ≤ n →
      hasTripleTick (removeFenceOccs tickChar fenceTail cs) = false ∧
      tickRun (removeFenceOccs tickChar fenceTail cs) ≤ tickRun cs ∧
      tickRun (removeFenceOccs tickChar fenceTail cs) ≤ 2 := by
  intro n
  induction n with
  | zero =>
    intro cs hcs
    have hnil : cs = [] := List.length_eq_zero.mp (Nat.le_zero.mp hcs)
    subst hnil
    simp [removeFenceOccs, hasTripleTick, tickRun]
  | succ n ih =>
    intro cs hcs
    match cs with
    | [] => simp [removeFenceOccs, hasTripleTick, tickRun]
    | c :: cs' =>
      have hlen : cs'.length ≤ n := by
        simp only [List.length_cons] at hcs; omega
      rw [removeFenceOccs]
      by_cases hpre : listHasPre (tickChar :: fenceTail) (c :: cs') = true
      · rw [if_pos hpre]
        have harg : (dropOptNl (cs'.drop fenceTail.length)).length ≤ n := by
          have h1 : ∀ l : List Char, (dropOptNl l).length ≤ l.length := by
            intro l
            unfold dropOptNl
            split
            · simp
            · exact Nat.le_refl _
          have h2 := h1 (cs'.drop fenceTail.length)
          simp only [List.length_drop] at h2 ⊢
          omega
        obtain ⟨ht, hr1, hr2⟩ := ih _ harg
        refine ⟨ht, ?_, hr2⟩
        -- the consumed text starts with three backticks, so the input
        -- run has length at least three while the output run is at most two
        rw [fenceTail_eq] at hpre
        simp only [listHasPre, Bool.and_eq_true, beq_iff_eq] at hpre
        obtain ⟨hc, hrest⟩ := hpre
        have h4 : tickRun (c :: cs') = tickRun cs' + 1 := by
          simp [tickRun, ← hc]
        have h3 : 2 ≤ tickRun cs' := two_le_tickRun cs' hrest
        omega
      · rw [if_neg hpre]
        obtain ⟨ht, hr1, hr2⟩ := ih cs' hlen
        by_cases hc : (c == tickChar) = true
        · -- leading backtick, but not three in a row: the tail run of
          -- the input is at most one, hence so is the run of the output tail
          have hc' : c = tickChar := beq_iff_eq.mp hc
          have hpre2 : listHasPre (tickChar :: [tickChar]) cs' = false := by

            cases hp : listHasPre (tickChar :: [tickChar]) cs' with
            | false => rfl
            | true =>
              refine absurd ?_ hpre
              rw [fenceTail_eq]
              simp only [listHasPre, Bool.and_eq_true, beq_iff_eq]
              refine ⟨hc'.symm, ?_⟩
              simpa only [listHasPre, Bool.and_eq_true, beq_iff_eq] using hp
          have htail : tickRun cs' ≤ 1 := tickRun_le_one_of_not_double cs' hpre2
          have houtTail : tickRun (removeFenceOccs tickChar fenceTail cs') ≤ 1 := by omega
          have hnodouble : listHasPre (tickChar :: [tickChar])
              (removeFenceOccs tickChar fenceTail cs') = false :=
            not_pre_of_tickRun_le_one _ houtTail
          refine ⟨?_, ?_, ?_⟩
          · simp [hasTripleTick, hnodouble, ht]
          · simp only [tickRun, hc, if_true, hc', beq_self_eq_true]
            omega
          · simp only [tickRun, hc, if_true]
            omega
        · have hc' : (c == tickChar) = false := by
            cases hcc : c == tickChar with
            | false => rfl
            | true => exact absurd hcc hc
          refine ⟨?_, ?_, ?_⟩
          · simp [hasTripleTick, hc', ht]
          · simp [tickRun, hc']
          · simp [tickRun, hc']

/-- Combined fence-stripping guarantee used by claim C9. -/
theorem fixCleanup_noTriple (raw : String) : hasTripleTick (fixCleanup raw).data = false := by
  unfold fixCleanup
  exact (removeTicks_aux _ _ (Nat.le_refl _)).1

/-- Claim C9, counterexample: the trimming happens before the fence
markers are removed, so removing a trailing fence can expose trailing
whitespace: on a fenced completion the returned source ends with a
newline, refuting the no-leading-or-trailing-whitespace guarantee. -/
theorem claim_C9_cex :
    fixCleanup "```latex\nx\n```" = "x\n" ∧
    jsTrim (fixCleanup "```latex\nx\n```") ≠ fixCleanup "```latex\nx\n```" := by
  have h : fixCleanup "```latex\nx\n```" = "x\n" := by
    simp [fixCleanup, jsTrim, dropWsLeft, removeFenceOccs, listHasPre, dropOptNl, isJsWs,
      tickChar, fenceTail, fenceLatexTail]
  refine ⟨h, ?_⟩
  rw [h]
  decide

/-- Claim C9 (amended): the fix requester returns the completion text
trimmed first and then stripped of fenced-code-block markers, so the
returned replacement source contains no fence marker (no triple
backtick), though it may retain whitespace exposed by the removal. -/
theorem claim_C9_amended (raw : String) :
    fixCleanup raw
      = String.mk (removeFenceOccs tickChar fenceTail
          (removeFenceOccs tickChar fenceLatexTail (jsTrim raw).data)) ∧
    hasTripleTick (fixCleanup raw).data = false :=
  ⟨rfl, fixCleanup_noTriple raw⟩

/-! ## Claims C1, C2, C5, C6: the retry loop -/

/-- Bound on the external calls the loop makes: with `fuel` iterations
left (and the attempt counter tied to the fuel), at most `fuel` more
compile calls and `fuel - 1` more fix calls happen. -/
theorem runAttempts_calls_bound (o : Oracles) (af : Bool) :
    ∀ fuel a cur lastErr sugg cc fc, a + fuel = MAX_ATTEMPTS + 1 →
      (runAttempts o af fuel a cur lastErr sugg cc fc).compileCalls ≤ cc + fuel ∧
      (runAttempts o af fuel a cur lastErr sugg cc fc).fixCalls ≤ fc + (fuel - 1) := by
  intro fuel
  induction fuel with
  | zero =>
    intro a cur lastErr sugg cc fc h
    simp [runAttempts, finishFailure]
  | succ n ih =>
    intro a cur lastErr sugg cc fc h
    have hcatch : ∀ msg : String,
        (if af = false ∨ a = MAX_ATTEMPTS then finishFailure o msg sugg (cc + 1) fc
         else match o.fix a with
           | FixOutcome.fixed newSrc =>
             runAttempts o af n (a + 1) newSrc (some msg)
               (some (aiFixPre ++ jsFirstLine msg)) (cc + 1) (fc + 1)
           | FixOutcome.fixFail _ =>
             finishFailure o msg (some aiUnavailable) (cc + 1) (fc + 1)).compileCalls
          ≤ cc + (n + 1) ∧
        (if af = false ∨ a = MAX_ATTEMPTS then finishFailure o msg sugg (cc + 1) fc
         else match o.fix a with
           | FixOutcome.fixed newSrc =>
             runAttempts o af n (a + 1) newSrc (some msg)
               (some (aiFixPre ++ jsFirstLine msg)) (cc + 1) (fc + 1)
           | FixOutcome.fixFail _ =>
             finishFailure o msg (some aiUnavailable) (cc + 1) (fc + 1)).fixCalls
          ≤ fc + (n + 1 - 1) := by
      intro msg
      by_cases hg : (af = false ∨ a = MAX_ATTEMPTS)
      · rw [if_pos hg]
        simp only [finishFailure]
        exact ⟨by omega, by omega⟩
      · rw [if_neg hg]
        have ha : a ≠ MAX_ATTEMPTS := fun hh => hg (Or.inr hh)
        have hn : 1 ≤ n := by
          simp only [MAX_ATTEMPTS] at h ha
          omega
        cases hf : o.fix a with
        | fixed s =>
          have hrec := ih (a + 1) s (some msg)
            (some (aiFixPre ++ jsFirstLine msg)) (cc + 1) (fc + 1) (by omega)
          exact ⟨le_trans hrec.1 (by omega), le_trans hrec.2 (by omega)⟩
        | fixFail m =>
          simp only [finishFailure]
          exact ⟨by omega, by omega⟩
    simp only [runAttempts]
    cases hc : o.compile a with
    | ok b =>
      by_cases hrm : o.rmSuccessOk = true
      · simp [hrm]
      · have hrm' : o.rmSuccessOk = false := by
          revert hrm; cases o.rmSuccessOk <;> simp
        rw [hrm']
        exact hcatch o.rmErr
    | fail msg => exact hcatch msg

/-- Claim C1: for every request the attempt ceiling bounds the external
calls: at most `MAX_ATTEMPTS` compiler invocations, at most
`MAX_ATTEMPTS - 1` fix-service calls, hence at most
`2 * MAX_ATTEMPTS - 1` external calls in total; the loop is a total
function, so every request reaches a terminal outcome. -/
theorem claim_C1_call_ceiling (latex : Option String) (af : Option Bool) (o : Oracles) :
    (handleCompile latex af o).compileCalls ≤ MAX_ATTEMPTS ∧
    (handleCompile latex af o).fixCalls ≤ MAX_ATTEMPTS - 1 ∧
    (handleCompile latex af o).compileCalls + (handleCompile latex af o).fixCalls
      ≤ 2 * MAX_ATTEMPTS - 1 := by
  unfold handleCompile
  by_cases ht : jsTruthy latex = false
  · rw [if_pos ht]
    simp [MAX_ATTEMPTS]
  · rw [if_neg ht]
    by_cases hm : o.mkdirOk = false
    · rw [if_pos hm]
      simp [MAX_ATTEMPTS]
    · rw [if_neg hm]
      have hb := runAttempts_calls_bound o (af.getD true) MAX_ATTEMPTS 1
        (latex.getD "") none none 0 0 rfl
      obtain ⟨h1, h2⟩ := hb
      simp only [MAX_ATTEMPTS] at h1 h2 ⊢
      refine ⟨by omega, by omega, by omega⟩

/-- Claim C2, counterexample: with fixing disabled and a failing source,
exactly one compile happens and no fix call, but the `attempts` field of
the reported failure is the constant 3, not 1. -/
theorem claim_C2_cex :
    (handleCompile (some "x") (some false) cOracle).compileCalls = 1 ∧
    (handleCompile (some "x") (some false) cOracle).fixCalls = 0 ∧
    (handleCompile (some "x") (some false) cOracle).response
      = Response.failJson "boom" "boom" 3 none ∧
    (3 : Nat) ≠ 1 := by
  decide

/-- Claim C2 (amended): for every request whose source fails to compile
and whose fix-enabling flag is false, the service reports the failure
after exactly one compiler invocation and without calling the fix
service, and the `attempts` field of the reported failure equals the
constant ceiling `MAX_ATTEMPTS` (3), not 1. -/
theorem claim_C2_amended (s msg : String) (o : Oracles) (hs : s ≠ "")
    (hm : o.mkdirOk = true) (hc : o.compile 1 = CompileOutcome.fail msg) :
    (handleCompile (some s) (some false) o).compileCalls = 1 ∧
    (handleCompile (some s) (some false) o).fixCalls = 0 ∧
    (handleCompile (some s) (some false) o).response
      = Response.failJson (jsFirstLine msg) (jsDetailsField msg) MAX_ATTEMPTS none := by
  unfold handleCompile
  have ht : ¬(jsTruthy (some s) = false) := by simp [jsTruthy, hs]
  have hm' : ¬(o.mkdirOk = false) := by simp [hm]
  rw [if_neg ht, if_neg hm']
  rw [show MAX_ATTEMPTS = 2 + 1 from rfl]
  simp only [runAttempts, Option.getD_some]
  rw [hc]
  simp [finishFailure, MAX_ATTEMPTS]

/-- Claim C2, witness: the amended claim at a concrete failing oracle
with fixing disabled. -/
theorem claim_C2_witness :
    (handleCompile (some "x") (some false) cOracle).compileCalls = 1 ∧
    (handleCompile (some "x") (some false) cOracle).fixCalls = 0 ∧
    (handleCompile (some "x") (some false) cOracle).response
      = Response.failJson (jsFirstLine "boom") (jsDetailsField "boom") MAX_ATTEMPTS none :=
  claim_C2_amended "x" "boom" cOracle (by decide) rfl rfl

/-- When the two guarded removal operations succeed and the unguarded
success-path removal succeeds, the loop never ends with the directory
still present. -/
theorem runAttempts_dirExists (o : Oracles) (af : Bool)
    (h1 : o.rmSuccessOk = true) (h2 : o.rmFailOk = true) :
    ∀ fuel a cur lastErr sugg cc fc,
      (runAttempts o af fuel a cur lastErr sugg cc fc).dirExists = false := by
  intro fuel
  induction fuel with
  | zero =>
    intro a cur lastErr sugg cc fc
    simp [runAttempts, finishFailure, h2]
  | succ n ih =>
    intro a cur lastErr sugg cc fc
    simp only [runAttempts]
    cases hc : o.compile a with
    | ok b => simp [h1]
    | fail msg =>
      by_cases hg : (af = false ∨ a = MAX_ATTEMPTS)
      · simp [hg, finishFailure, h2]
      · simp only [if_neg hg]
        cases hf : o.fix a with
        | fixed s => exact ih (a + 1) s (some msg) _ (cc + 1) (fc + 1)
        | fixFail m => simp [finishFailure, h2]

/-- Claim C5: when the filesystem removal operations succeed, every
terminal outcome of the handler (success, final failure, or unexpected
internal error) leaves the working directory removed. -/
theorem claim_C5_cleanup (latex : Option String) (af : Option Bool) (o : Oracles)
    (h1 : o.rmSuccessOk = true) (h2 : o.rmFailOk = true) (_h3 : o.rmCatchOk = true) :
    (handleCompile latex af o).dirExists = false := by
  unfold handleCompile
  by_cases ht : jsTruthy latex = false
  · simp [ht]
  · by_cases hm : o.mkdirOk = false
    · simp [ht, hm]
    · simp [ht, hm, runAttempts_dirExists o (af.getD true) h1 h2]

/-- Claim C5, witness: a concrete run (all three attempts fail, fixes
succeed) ends with the directory removed. -/
theorem claim_C5_witness : (handleCompile (some "x") none cOracle).dirExists = false :=
  claim_C5_cleanup (some "x") none cOracle rfl rfl rfl

/-- Failures of the two catch-guarded removals are invisible in the
response of the loop. -/
theorem runAttempts_response_ext (o₂ o : Oracles) (af : Bool)
    (hco : o₂.compile = o.compile) (hfi : o₂.fix = o.fix)
    (hrs : o₂.rmSuccessOk = o.rmSuccessOk) (hre : o₂.rmErr = o.rmErr) :
    ∀ fuel a cur lastErr sugg cc fc,
      (runAttempts o₂ af fuel a cur lastErr sugg cc fc).response
        = (runAttempts o af fuel a cur lastErr sugg cc fc).response := by
  intro fuel
  induction fuel with
  | zero =>
    intro a cur lastErr sugg cc fc
    rfl
  | succ n ih =>
    intro a cur lastErr sugg cc fc
    have hcatch : ∀ msg : String,
        ((if af = false ∨ a = MAX_ATTEMPTS then finishFailure o₂ msg sugg (cc + 1) fc
          else match o.fix a with
            | FixOutcome.fixed newSrc =>
              runAttempts o₂ af n (a + 1) newSrc
                (some msg) (some (aiFixPre ++ jsFirstLine msg)) (cc + 1) (fc + 1)
            | FixOutcome.fixFail _ =>
              finishFailure o₂ msg (some aiUnavailable) (cc + 1) (fc + 1)).response)
          = ((if af = false ∨ a = MAX_ATTEMPTS then finishFailure o msg sugg (cc + 1) fc
              else match o.fix a with
                | FixOutcome.fixed newSrc =>
                  runAttempts o af n (a + 1) newSrc (some msg)
                    (some (aiFixPre ++ jsFirstLine msg)) (cc + 1) (fc + 1)
                | FixOutcome.fixFail _ =>
                  finishFailure o msg (some aiUnavailable) (cc + 1) (fc + 1)).response) := by
      intro msg
      by_cases hg : (af = false ∨ a = MAX_ATTEMPTS)
      · rw [if_pos hg, if_pos hg]
        rfl
      · rw [if_neg hg, if_neg hg]
        cases hf : o.fix a with
        | fixed s => exact ih (a + 1) s (some msg) _ (cc + 1) (fc + 1)
        | fixFail m => rfl
    simp only [runAttempts, hco, hfi, hrs, hre]
    cases hc : o.compile a with
    | ok b =>
      by_cases hrm : o.rmSuccessOk = true
      · simp [hrm]
      · have hrm' : o.rmSuccessOk = false := by
          revert hrm; cases o.rmSuccessOk <;> simp
        rw [hrm']
        exact hcatch o.rmErr
    | fail msg => exact hcatch msg

/-- With the success-path removal failing, the loop never sends the
PDF: every iteration ends in the catch block, so the run terminates in
the post-loop JSON failure response with the constant attempts field. -/
theorem runAttempts_failJson (o : Oracles) (af : Bool) (h : o.rmSuccessOk = false) :
    ∀ fuel a cur lastErr sugg cc fc,
      ∃ e d sg, (runAttempts o af fuel a cur lastErr sugg cc fc).response
        = Response.failJson e d MAX_ATTEMPTS sg := by
  intro fuel
  induction fuel with
  | zero =>
    intro a cur lastErr sugg cc fc
    exact ⟨jsFirstLine (lastErr.getD ""), jsDetailsField (lastErr.getD ""), sugg, rfl⟩
  | succ n ih =>
    intro a cur lastErr sugg cc fc
    have hcatch : ∀ msg : String,
        ∃ e d sg, ((if af = false ∨ a = MAX_ATTEMPTS then finishFailure o msg sugg (cc + 1) fc
          else match o.fix a with
            | FixOutcome.fixed newSrc =>
              runAttempts o af n (a + 1) newSrc (some msg)
                (some (aiFixPre ++ jsFirstLine msg)) (cc + 1) (fc + 1)
            | FixOutcome.fixFail _ =>
              finishFailure o msg (some aiUnavailable) (cc + 1) (fc + 1)).response)
          = Response.failJson e d MAX_ATTEMPTS sg := by
      intro msg
      by_cases hg : (af = false ∨ a = MAX_ATTEMPTS)
      · rw [if_pos hg]
        exact ⟨jsFirstLine msg, jsDetailsField msg, sugg, rfl⟩
      · rw [if_neg hg]
        cases hf : o.fix a with
        | fixed s => exact ih (a + 1) s (some msg) _ (cc + 1) (fc + 1)
        | fixFail m => exact ⟨jsFirstLine msg, jsDetailsField msg, some aiUnavailable, rfl⟩
    simp only [runAttempts]
    cases hc : o.compile a with
    | ok b =>
      rw [h]
      exact hcatch o.rmErr
    | fail msg => exact hcatch msg

/-- Claim C6, counterexample: a successful compilation whose cleanup
fails does NOT return the artifact: the success-path removal rejection
is caught by the catch of the loop like a compilation failure, the
service retries (LLM-fixing the removal error message), and finally
reports the JSON failure response, so a cleanup failure does change the
response that would otherwise have been sent. -/
theorem claim_C6_cex :
    (handleCompile (some "x") none cOracleSucc).response = Response.pdf [1, 2] 1 false ∧
    (handleCompile (some "x") none { cOracleSucc with rmSuccessOk := false }).response
      = Response.failJson "rm boom" "rm boom" MAX_ATTEMPTS
          (some (aiFixPre ++ "rm boom")) ∧
    (handleCompile (some "x") none { cOracleSucc with rmSuccessOk := false }).compileCalls = 3 ∧
    (handleCompile (some "x") none { cOracleSucc with rmSuccessOk := false }).fixCalls = 2 ∧
    Response.failJson "rm boom" "rm boom" MAX_ATTEMPTS (some (aiFixPre ++ "rm boom"))
      ≠ Response.pdf [1, 2] 1 false := by
  decide

/-- Claim C6 (amended): failures of the catch-guarded cleanups (after
the failed loop and in the outer catch) are swallowed and never change
the response; but the success-path cleanup sits inside the try block of
the loop, so its failure is treated as a compilation failure: a request
that would have answered with the artifact instead ends in the JSON
failure response with the constant attempts field (after retries that
LLM-fix the cleanup error message). -/
theorem claim_C6_amended :
    (∀ (latex : Option String) (af : Option Bool) (o : Oracles) (b1 b2 : Bool),
      (handleCompile latex af { o with rmFailOk := b1, rmCatchOk := b2 }).response
        = (handleCompile latex af o).response) ∧
    (∀ (latex : Option String) (af : Option Bool) (o : Oracles)
        (bytes : List Nat) (k : Nat) (fx : Bool),
      (handleCompile latex af { o with rmSuccessOk := true }).response
        = Response.pdf bytes k fx →
      ∃ e d sg, (handleCompile latex af { o with rmSuccessOk := false }).response
        = Response.failJson e d MAX_ATTEMPTS sg) := by
  constructor
  · intro latex af o b1 b2
    simp only [handleCompile]
    by_cases ht : jsTruthy latex = false
    · rw [if_pos ht, if_pos ht]
    · rw [if_neg ht, if_neg ht]
      by_cases hm : o.mkdirOk = false
      · rw [if_pos hm, if_pos hm]
      · rw [if_neg hm, if_neg hm]
        exact runAttempts_response_ext { o with rmFailOk := b1, rmCatchOk := b2 } o
          (af.getD true) rfl rfl rfl rfl MAX_ATTEMPTS 1 (latex.getD "") none none 0 0
  · intro latex af o bytes k fx h
    unfold handleCompile at h ⊢
    have hp1 : ({ o with rmSuccessOk := true } : Oracles).mkdirOk = o.mkdirOk := rfl
    have hp2 : ({ o with rmSuccessOk := false } : Oracles).mkdirOk = o.mkdirOk := rfl
    rw [hp1] at h
    rw [hp2]
    by_cases ht : jsTruthy latex = false
    · rw [if_pos ht] at h
      simp at h
    · rw [if_neg ht] at h ⊢
      by_cases hm : o.mkdirOk = false
      · rw [if_pos hm] at h
        simp at h
      · rw [if_neg hm] at h ⊢
        exact runAttempts_failJson { o with rmSuccessOk := false } (af.getD true) rfl
          MAX_ATTEMPTS 1 (latex.getD "") none none 0 0

/-- Claim C6, witness: the amended claim at a concrete oracle whose
attempts all compile successfully but whose success-path removal fails:
the run that returns the artifact under a succeeding removal ends in
the JSON failure response under a failing one. -/
theorem claim_C6_witness :
    ∃ e d sg,
      (handleCompile (some "x") none { cOracleSucc with rmSuccessOk := false }).response
        = Response.failJson e d MAX_ATTEMPTS sg :=
  claim_C6_amended.2 (some "x") none cOracleSucc [1, 2] 1 false (by decide)

end LatexService
